import Mathlib

/-!
Verification development for the calendar proxy worker.

The worker is JavaScript running on an edge platform.  We give a shallow
embedding in Lean:

* pure string/byte manipulation from the source is translated directly,
  working over `List Char` / `List Nat` so that everything reduces in the
  kernel;
* platform primitives (Web Crypto HMAC-SHA256 and AES-128-CBC, `TextDecoder`,
  `Date` parsing, `decodeURIComponent`, `JSON.parse`, the upstream `fetch`)
  are abstracted as parameters, with their standard algebraic properties
  taken as hypotheses where a theorem needs them;
* JavaScript objects carrying calendar events are modelled as a record whose
  fields are the exact field names probed by the source (absent/`null`
  modelled as `none`, present string values as `some`).
-/

/-! ## Small JavaScript-flavoured string helpers (structural, kernel-reducible) -/

/-- Truthiness of an optional string: JS `undefined`/`null` and `""` are falsy. -/
def jsFalsyS (o : Option String) : Bool :=
  match o with
  | none => true
  | some s => s = ""

/-- Truthiness (negation of `jsFalsyS`). -/
def jsTruthyS (o : Option String) : Bool := !(jsFalsyS o)

/-- JS `a || b` on optional strings: keeps `a` when truthy, otherwise `b`. -/
def jsOrS (a b : Option String) : Option String :=
  if jsTruthyS a then a else b

/-- JS `a || d` where `d` is a plain default string. -/
def jsValOr (o : Option String) (d : String) : String :=
  match o with
  | some s => if s = "" then d else s
  | none => d

/-- Lower-case a char list (models JS `toLowerCase` on the ASCII range). -/
def lowerL (cs : List Char) : List Char := cs.map Char.toLower

/-- Upper-case a char list (models JS `toUpperCase` on the ASCII range). -/
def upperL (cs : List Char) : List Char := cs.map Char.toUpper

/-- Lower-case a string. -/
def lowerS (s : String) : String := String.mk (lowerL s.data)

/-- Upper-case a string. -/
def upperS (s : String) : String := String.mk (upperL s.data)

/-- Substring test (models JS `String.prototype.includes`, nonempty pattern). -/
def containsSub : List Char → List Char → Bool
  | [], pat => pat.isPrefixOf []
  | c :: rest, pat => pat.isPrefixOf (c :: rest) || containsSub rest pat

/-- Substring test on strings. -/
def containsSubS (s pat : String) : Bool := containsSub s.data pat.data

/-- Suffix test (models JS `String.prototype.endsWith`). -/
def endsWithS (s suffix : String) : Bool := suffix.data.isSuffixOf s.data

/-- Prefix test (models JS `String.prototype.startsWith`). -/
def startsWithS (s pre : String) : Bool := pre.data.isPrefixOf s.data

/-- Fuel-driven split on a (nonempty) separator, left to right, non-overlapping.
Fuel `s.length + 1` always suffices; the fallback line is never reached then. -/
def splitOnFuel (sep : List Char) : Nat → List Char → List Char → List (List Char)
  | 0, s, acc => [acc.reverse ++ s]
  | _ + 1, [], acc => [acc.reverse]
  | fuel + 1, c :: rest, acc =>
    if sep ≠ [] ∧ sep.isPrefixOf (c :: rest) then
      acc.reverse :: splitOnFuel sep fuel ((c :: rest).drop sep.length) []
    else
      splitOnFuel sep fuel rest (c :: acc)

/-- Split a string on a separator (models JS `split` on a plain string). -/
def splitOnS (s sep : String) : List String :=
  (splitOnFuel sep.data (s.data.length + 1) s.data []).map String.mk

/-- Fuel-driven global replace of a (nonempty) pattern. -/
def replaceFuel (pat rep : List Char) : Nat → List Char → List Char
  | 0, s => s
  | _ + 1, [] => []
  | fuel + 1, c :: rest =>
    if pat ≠ [] ∧ pat.isPrefixOf (c :: rest) then
      rep ++ replaceFuel pat rep fuel ((c :: rest).drop pat.length)
    else
      c :: replaceFuel pat rep fuel rest

/-- Global replace on strings (models JS `replace` with a `g` regex of a literal). -/
def replaceS (s pat rep : String) : String :=
  String.mk (replaceFuel pat.data rep.data (s.data.length + 1) s.data)

/-- Trim ASCII whitespace from both ends (models JS `String.prototype.trim`). -/
def trimS (s : String) : String :=
  String.mk (((s.data.dropWhile Char.isWhitespace).reverse.dropWhile Char.isWhitespace).reverse)

/-! ## Base64 (source: `base64UrlDecode` in `worker.js`)

The worker decodes URL-safe base64 by mapping `-`/`_` to `+`/`/`, padding
with `=` to a multiple of four, and calling the platform `atob`.  `atob` is
plain base64 decoding; we implement it directly. -/

/-- The standard base64 alphabet used by `atob`. -/
def b64StdAlphabet : List Char :=
  "ABCDEFGHIJKLMNOPQRSTUVWXYZabcdefghijklmnopqrstuvwxyz0123456789+/".data

/-- The URL-safe base64 alphabet (used by the reference token encoder). -/
def b64UrlAlphabet : List Char :=
  "ABCDEFGHIJKLMNOPQRSTUVWXYZabcdefghijklmnopqrstuvwxyz0123456789-_".data

/-- Value of one standard-alphabet base64 character (`none` for invalid input). -/
def b64DecodeChar (c : Char) : Option Nat :=
  List.findIdx? (fun d => d = c) b64StdAlphabet

/-- Character `n` of the URL-safe alphabet. -/
def b64UrlChar (n : Nat) : Char := b64UrlAlphabet.getD n 'A'

/-- The worker's per-character URL-safe-to-standard mapping: dash becomes
plus and underscore becomes slash, via two global replaces. -/
def urlToStd (c : Char) : Char :=
  if c = '-' then '+' else if c = '_' then '/' else c

/-- Base64 decoding of a `=`-padded string in four-character chunks; models the
platform `atob` on the padded input the worker hands it (errors are `none`). -/
def atobChunks : List Char → Option (List Nat)
  | [] => some []
  | c1 :: c2 :: c3 :: c4 :: rest => do
    let n1 ← b64DecodeChar c1
    let n2 ← b64DecodeChar c2
    if c3 = '=' then
      if c4 = '=' ∧ rest = [] then some [n1 * 4 + n2 / 16] else none
    else do
      let n3 ← b64DecodeChar c3
      if c4 = '=' then
        if rest = [] then some [n1 * 4 + n2 / 16, n2 % 16 * 16 + n3 / 4] else none
      else do
        let n4 ← b64DecodeChar c4
        let tail ← atobChunks rest
        some ((n1 * 4 + n2 / 16) :: (n2 % 16 * 16 + n3 / 4) :: (n3 % 4 * 64 + n4) :: tail)
  | _ => none

/-- The worker's `while (base64.length % 4) base64 += '='` padding loop. -/
def padBase64 (cs : List Char) : List Char :=
  cs ++ List.replicate ((4 - cs.length % 4) % 4) '='

/-- Source `base64UrlDecode`: URL-safe chars to standard, pad, then `atob`. -/
def base64UrlDecode (s : String) : Option (List Nat) :=
  atobChunks (padBase64 (s.data.map urlToStd))

/-- URL-safe base64 encoding of a byte list, three bytes to four characters,
`=`-padded (the transport encoding of the reference token construction). -/
def b64EncodeChunks : List Nat → List Char
  | [] => []
  | [a] => [b64UrlChar (a / 4), b64UrlChar (a % 4 * 16), '=', '=']
  | [a, b] => [b64UrlChar (a / 4), b64UrlChar (a % 4 * 16 + b / 16), b64UrlChar (b % 16 * 4), '=']
  | a :: b :: c :: rest =>
    b64UrlChar (a / 4) :: b64UrlChar (a % 4 * 16 + b / 16) ::
      b64UrlChar (b % 16 * 4 + c / 64) :: b64UrlChar (c % 64) :: b64EncodeChunks rest

/-- URL-safe base64 encoding as a string. -/
def base64UrlEncode (bs : List Nat) : String := String.mk (b64EncodeChunks bs)

/-! ## The Fernet token codec (source: `decryptFernetToken` in `worker.js`)

The Web Crypto primitives are platform calls; they are abstracted as a
provider record.  `aesCbcDecrypt` returns `none` when the platform call
throws (wrong length, bad PKCS7 padding); `aesCbcEncrypt` is CBC encryption
including PKCS7 padding, used only by the reference encoder. -/

/-- Abstract platform crypto and text-codec primitives. -/
structure CryptoProvider where
  hmacSha256 : List Nat → List Nat → List Nat
  aesCbcEncrypt : List Nat → List Nat → List Nat → List Nat
  aesCbcDecrypt : List Nat → List Nat → List Nat → Option (List Nat)
  utf8Encode : String → List Nat
  utf8Decode : List Nat → String

/-- Standard properties of the platform primitives, assumed where needed:
HMAC-SHA256 yields 32 bytes, AES-CBC-decrypt inverts AES-CBC-encrypt
(PKCS7 included), and `TextDecoder` inverts UTF-8 encoding. -/
structure CryptoProviderOK (p : CryptoProvider) : Prop where
  hmac_len : ∀ k m, (p.hmacSha256 k m).length = 32
  hmac_lt : ∀ k m, ∀ b ∈ p.hmacSha256 k m, b < 256
  enc_lt : ∀ k iv m, (∀ b ∈ m, b < 256) → ∀ b ∈ p.aesCbcEncrypt k iv m, b < 256
  dec_enc : ∀ k iv m, p.aesCbcDecrypt k iv (p.aesCbcEncrypt k iv m) = some m
  utf8_inv : ∀ s, p.utf8Decode (p.utf8Encode s) = s

/-- Source `decryptFernetToken`.  Every `throw` in the source becomes an
`Except.error` carrying the wrapped message produced by the outer
`catch`/rethrow. -/
def decryptFernetToken (p : CryptoProvider) (token secretKey : String) :
    Except String String :=
  match base64UrlDecode token with
  | none => .error "Fernet decryption failed: invalid base64"
  | some tokenBytes =>
    if tokenBytes.length < 57 then
      .error "Fernet decryption failed: Invalid Fernet token: too short"
    else if tokenBytes.getD 0 0 ≠ 0x80 then
      .error "Fernet decryption failed: Invalid Fernet token: unsupported version"
    else
      -- timestamp := tokenBytes.slice(1, 9) is extracted but never used
      let iv := (tokenBytes.drop 9).take 16
      let hmacTag := tokenBytes.drop (tokenBytes.length - 32)
      let ciphertext := (tokenBytes.take (tokenBytes.length - 32)).drop 25
      match base64UrlDecode secretKey with
      | none => .error "Fernet decryption failed: Failed to decode secret key: invalid base64"
      | some secretBytes =>
        if secretBytes.length ≠ 32 then
          .error "Fernet decryption failed: Failed to decode secret key: Invalid secret key length"
        else
          let signingKey := secretBytes.take 16
          let encryptionKey := (secretBytes.drop 16).take 16
          let message := tokenBytes.take (tokenBytes.length - 32)
          let computed := p.hmacSha256 signingKey message
          -- the source's byte-by-byte constant-time loop over indices 0..31
          let hmacValid := computed.length == hmacTag.length &&
            (List.range 32).all (fun i => computed.get? i == hmacTag.get? i)
          if !hmacValid then
            .error "Fernet decryption failed: Invalid Fernet token: HMAC verification failed"
          else
            match p.aesCbcDecrypt encryptionKey iv ciphertext with
            | none => .error "Fernet decryption failed: AES decryption error"
            | some plainBytes => .ok (p.utf8Decode plainBytes)

/-- Source `decryptFernetUrl`: strip a `fernet://` scheme then decode. -/
def decryptFernetUrl (p : CryptoProvider) (fernetUrl secretKey : String) :
    Except String String :=
  let token := if startsWithS fernetUrl "fernet://"
    then String.mk (fernetUrl.data.drop 9) else fernetUrl
  decryptFernetToken p token secretKey

/-- Reference Fernet token construction of spec §4.1 (modelled from the spec;
the encoder itself lives in the excluded CLI helper): version byte `0x80`,
eight timestamp bytes, sixteen IV bytes, AES-128-CBC ciphertext under the
secret's last sixteen bytes, and an HMAC-SHA256 tag under the secret's first
sixteen bytes over everything preceding it, URL-safe base64 encoded. -/
def encodeFernetToken (p : CryptoProvider) (secretBytes ts iv : List Nat)
    (plaintext : String) : String :=
  let ciphertext := p.aesCbcEncrypt (secretBytes.drop 16) iv (p.utf8Encode plaintext)
  let message := 0x80 :: (ts ++ iv ++ ciphertext)
  let tag := p.hmacSha256 (secretBytes.take 16) message
  base64UrlEncode (message ++ tag)

/-! ## Calendar event model (source: event helpers in the worker)

A JS event object is modelled as a record over exactly the field names the
worker probes.  An absent or `null` field is `none`; a present string value
is `some`.  The `css-classes` key (hyphenated in JS) is `cssClassesDash`;
the `class` key (a Lean keyword) is `classField`.  `css_classes` may hold an
array or a string (the sanitizer writes `''` into it), hence `CssVal`. -/

/-- Value of the `css_classes` field: an array of class strings or a string. -/
inductive CssVal where
  | arr (l : List String)
  | str (s : String)
  deriving DecidableEq, Repr

/-- Nested `properties` object probed by `getEventClass`. -/
structure ClassProps where
  CLASS : Option String
  cls : Option String
  deriving DecidableEq, Repr

/-- Calendar event record. -/
structure Event where
  title : Option String := none
  summary : Option String := none
  name : Option String := none
  text : Option String := none
  description : Option String := none
  desc : Option String := none
  location : Option String := none
  loc : Option String := none
  url : Option String := none
  link : Option String := none
  organizer : Option String := none
  attendees : Option String := none
  attendee : Option String := none
  participants : Option String := none
  label : Option String := none
  notes : Option String := none
  note : Option String := none
  comment : Option String := none
  comments : Option String := none
  ical : Option String := none
  uid : Option String := none
  id : Option String := none
  categories : Option String := none
  color : Option String := none
  css_classes : Option CssVal := none
  cssClassesDash : Option (List String) := none
  cssClasses : Option (List String) := none
  owc : Option String := none
  recurrence : Option String := none
  sequence : Option String := none
  type : Option String := none
  classField : Option String := none
  CLASS : Option String := none
  classification : Option String := none
  properties : Option ClassProps := none
  event_status : Option String := none
  status : Option String := none
  calendar : Option String := none
  calendarId : Option String := none
  calendar_id : Option String := none
  source : Option String := none
  start : Option String := none
  startDate : Option String := none
  start_time : Option String := none
  startTime : Option String := none
  dtstart : Option String := none
  start_date : Option String := none
  dateStart : Option String := none
  date_start : Option String := none
  endF : Option String := none
  endDate : Option String := none
  end_time : Option String := none
  endTime : Option String := none
  dtend : Option String := none
  end_date : Option String := none
  dateEnd : Option String := none
  date_end : Option String := none
  _isNonPublic : Bool := false
  deriving DecidableEq, Repr

/-- Which time field family `getEventTime` is asked for. -/
inductive TimeField where
  | startF
  | endF
  deriving DecidableEq, Repr

/-- Source `getEventTime`: the alias lists tried for start and end times
(`endF` stands for the JS field `end`). -/
def timeFieldAliases (e : Event) : TimeField → List (Option String)
  | .startF => [e.start, e.startDate, e.start_time, e.startTime, e.dtstart,
      e.start_date, e.dateStart, e.date_start]
  | .endF => [e.endF, e.endDate, e.end_time, e.endTime, e.dtend,
      e.end_date, e.dateEnd, e.date_end]

/-- Source `getEventTime`: first alias that is neither `undefined` nor `null`. -/
def getEventTime (e : Event) (f : TimeField) : Option String :=
  (timeFieldAliases e f).findSome? id

/-- Source `getEventTitle`: `event.title || event.summary || event.name || event.text || ''`. -/
def getEventTitle (e : Event) : String :=
  jsValOr (jsOrS e.title (jsOrS e.summary (jsOrS e.name e.text))) ""

/-- Source `getEventDescription`: `event.description || event.desc || ''`. -/
def getEventDescription (e : Event) : String :=
  jsValOr (jsOrS e.description e.desc) ""

/-- Source `getCalendarId`: `event.calendar || event.calendarId || event.calendar_id || event.source || 'default'`. -/
def getCalendarId (e : Event) : String :=
  jsValOr (jsOrS e.calendar (jsOrS e.calendarId (jsOrS e.calendar_id e.source))) "default"

/-- Helper for `getEventClass`: whitespace-or-colon separator class of the
regex fragment matching colon-or-space runs after the CLASS literal. -/
def isClassSep (c : Char) : Bool := c = ':' || c.isWhitespace

/-- Helper for `getEventClass`: the first match of the case-insensitive regex
pattern CLASS followed by separators followed by at least one letter, which
captures the maximal letter run, scanning left to right. -/
def icalClassMatch : List Char → Option String
  | [] => none
  | c :: rest =>
    if lowerL (List.take 5 (c :: rest)) = "class".data then
      let letters := ((c :: rest).drop 5).dropWhile isClassSep |>.takeWhile Char.isAlpha
      if letters ≠ [] then some (String.mk letters) else icalClassMatch rest
    else icalClassMatch rest

/-- Source `getEventClass`, first probe: `event.class || event.CLASS ||
event.classification` (the bracket accesses in the source repeat the same
two keys and add nothing). -/
def rawClassChain (e : Event) : Option String :=
  jsOrS e.classField (jsOrS e.CLASS e.classification)

/-- Source `getEventClass`, second probe: the nested `properties` object
(with a string-valued CLASS the `?.value` arms of the source are inert). -/
def classAfterProps (e : Event) : Option String :=
  let v1 := rawClassChain e
  if jsTruthyS v1 then v1
  else
    match e.properties with
    | some pr => jsOrS pr.CLASS pr.cls
    | none => v1

/-- Source `getEventClass`, third probe: a regex scrape of the raw iCal text
(the object-valued `ical` arm of the source is inert in the string model). -/
def classAfterIcal (e : Event) : Option String :=
  let v2 := classAfterProps e
  if jsTruthyS v2 then v2
  else
    match e.ical with
    | some ic =>
      if ic ≠ "" then
        match icalClassMatch ic.data with
        | some c => some c
        | none => v2
      else v2
    | none => v2

/-- Source `getEventClass`: `null` when nothing (or an empty string) was
found, otherwise the upper-cased value. -/
def getEventClass (e : Event) : Option String :=
  match classAfterIcal e with
  | none => none
  | some s => if s = "" then none else some (upperS s)

/-- Source `isPublicEvent`: true exactly when the CLASS resolves to PUBLIC. -/
def isPublicEvent (e : Event) : Bool :=
  getEventClass e == some "PUBLIC"

/-- Source `removeAllEventInfo`: blank every identifying field, put the BUSY
placeholder in `text`, drop the raw iCal text, and mark the event redacted. -/
def removeAllEventInfo (e : Event) : Event :=
  { e with
    title := some "", summary := some "", name := some "", text := some "BUSY",
    description := some "", desc := some "",
    location := some "", loc := some "",
    url := some "", link := some "",
    organizer := some "", attendees := some "", attendee := some "",
    participants := some "",
    label := some "", notes := some "", note := some "",
    comment := some "", comments := some "",
    ical := some "",
    uid := some "", id := some "", categories := some "", color := some "",
    css_classes := some (.str ""), owc := some "",
    recurrence := some "", sequence := some "", type := some "",
    _isNonPublic := true }

/-- Source `sanitizeNonPublicEvent`: PUBLIC events pass unchanged, everything
else is copied and scrubbed by `removeAllEventInfo`. -/
def sanitizeNonPublicEvent (e : Event) : Event :=
  if isPublicEvent e then e else removeAllEventInfo e

/-- Source `parseUserEmails`: split the comma-separated secret, trim,
lower-case, and drop empties (`none`/empty secret gives the empty list). -/
def parseUserEmails (userEmailsSecret : Option String) : List String :=
  match userEmailsSecret with
  | none => []
  | some s =>
    if s = "" then []
    else ((splitOnS s ",").map (fun t => lowerS (trimS t))).filter (fun t => t ≠ "")

/-- Source `isEventDeclined`, resolved css-class value:
`event['css-classes'] || event.css_classes || event.cssClasses || []`. -/
def resolvedCss (e : Event) : CssVal :=
  match e.cssClassesDash with
  | some l => .arr l
  | none =>
    match e.css_classes with
    | some (.arr l) => .arr l
    | some (.str s) =>
      if s ≠ "" then .str s
      else match e.cssClasses with
        | some l => .arr l
        | none => .arr []
    | none =>
      match e.cssClasses with
      | some l => .arr l
      | none => .arr []

/-- Source `isEventDeclined`, css-class indicator: an exact (lower-cased)
`status-declined` or `partstat-declined` entry. -/
def cssDeclined (e : Event) : Bool :=
  match resolvedCss e with
  | .arr cls => cls.any (fun c => lowerS c = "status-declined" || lowerS c = "partstat-declined")
  | .str _ => false

/-- Source `isEventDeclined`, type indicator: a truthy `type` field equal to
DECLINED or CANCELLED after upper-casing. -/
def typeDeclined (e : Event) : Bool :=
  jsTruthyS e.type &&
    (upperS (e.type.getD "") = "DECLINED" || upperS (e.type.getD "") = "CANCELLED")

/-- Source `isEventDeclined`, raw-fragment STATUS indicator: a line of the
iCal text starting with STATUS:CANCELLED or STATUS:DECLINED
(the multiline, case-insensitive regex of the source). -/
def icalStatusCancelled (ic : String) : Bool :=
  (splitOnS ic "\n").any (fun l =>
    startsWithS (lowerS l) "status:cancelled" || startsWithS (lowerS l) "status:declined")

/-- Source `isEventDeclined`, unfolded attendee lines: continuation lines are
joined and the text is split on CRLF or LF. -/
def icalLines (ic : String) : List String :=
  splitOnS (replaceS (replaceS ic "\r\n " "") "\r\n" "\n") "\n"

/-- Source `isEventDeclined`, attendee indicator: an ATTENDEE line carrying
PARTSTAT=DECLINED that also contains one of the configured user email
addresses as a case-insensitive substring. -/
def icalUserDeclined (ic : String) (userEmails : List String) : Bool :=
  (icalLines ic).any (fun line =>
    startsWithS line "ATTENDEE" &&
    containsSubS (lowerS line) "partstat=declined" &&
    userEmails.any (fun em => containsSubS (lowerS line) (lowerS em)))

/-- Source `isEventDeclined`, status-field indicator: a truthy
`event_status || status` equal to CANCELLED or DECLINED after upper-casing. -/
def statusDeclined (e : Event) : Bool :=
  let st := jsOrS e.event_status e.status
  jsTruthyS st && (upperS (st.getD "") = "CANCELLED" || upperS (st.getD "") = "DECLINED")

/-- Source `isEventDeclined`: any of the four indicators (the `console.log`
calls of the source have no semantic effect and are not modelled). -/
def isEventDeclined (e : Event) (userEmails : List String) : Bool :=
  cssDeclined e ||
  typeDeclined e ||
  (jsTruthyS e.ical &&
    (icalStatusCancelled (e.ical.getD "") ||
     icalUserDeclined (e.ical.getD "") userEmails)) ||
  statusDeclined e

/-- Source `filterDeclinedEvents`: keep the events that are not declined
(an empty input is returned as is). -/
def filterDeclinedEvents (events : List Event) (userEmails : List String) : List Event :=
  if events = [] then events
  else events.filter (fun e => !(isEventDeclined e userEmails))

/-! ## Consecutive-event merging (source: `mergeConsecutiveEvents`)

The platform `Date` constructor and `toISOString` are abstracted as a
provider: `parseDate` maps a date string to its epoch value (`none` for an
invalid date), `dateToIso` renders an epoch value as its ISO string. -/

/-- Abstract platform date parsing and rendering. -/
structure DateProvider where
  parseDate : String → Option Int
  dateToIso : Int → String

/-- Source `normalizeDate` on the string-valued time fields: falsy input
gives `null`; an unparseable date gives `null`; otherwise the ISO string. -/
def normalizeDate (P : DateProvider) (dateValue : Option String) : Option String :=
  match dateValue with
  | none => none
  | some s =>
    if s = "" then none
    else
      match P.parseDate s with
      | none => none
      | some t => some (P.dateToIso t)

/-- The sort comparator of the source: zero when either start is missing or
falsy, otherwise the difference of the parsed dates (an unparseable but
present start makes the subtraction NaN, which the engine treats as zero). -/
def sortCmp (P : DateProvider) (a b : Event) : Int :=
  match getEventTime a .startF, getEventTime b .startF with
  | some x, some y =>
    if x = "" ∨ y = "" then 0
    else
      match P.parseDate x, P.parseDate y with
      | some m, some n => m - n
      | _, _ => 0
  | _, _ => 0

/-- Stable insertion of one event into an already sorted list: the new event
goes after every event it does not strictly precede. -/
def insertSorted (P : DateProvider) (x : Event) : List Event → List Event
  | [] => [x]
  | y :: ys => if sortCmp P x y < 0 then x :: y :: ys else y :: insertSorted P x ys

/-- The stable sort by start time performed on each calendar group
(models the engine's stable `Array.prototype.sort`). -/
def jsSortEvents (P : DateProvider) (es : List Event) : List Event :=
  es.foldl (fun acc e => insertSorted P e acc) []

/-- Grouping by calendar identifier, preserving first-appearance order of the
groups and arrival order inside each group (models the JS object used as a
dictionary; integer-like keys would additionally be reordered numerically by
the engine, which coincides with arrival order in all claims considered). -/
def addToGroup (k : String) (e : Event) : List (String × List Event) → List (String × List Event)
  | [] => [(k, [e])]
  | (k', es) :: rest =>
    if k' = k then (k', es ++ [e]) :: rest else (k', es) :: addToGroup k e rest

/-- Source grouping loop of `mergeConsecutiveEvents`. -/
def groupByCalendar (events : List Event) : List (String × List Event) :=
  events.foldl (fun acc e => addToGroup (getCalendarId e) e acc) []

/-- Merge-step title and description combination for two PUBLIC events
(source `mergeConsecutiveEvents`, the `else` branch of the non-public test). -/
def mergeTitlesDescs (cm e : Event) : Event :=
  let currentTitle := getEventTitle cm
  let eventTitle := getEventTitle e
  let combinedTitle :=
    if currentTitle ≠ "" ∧ eventTitle ≠ "" then currentTitle ++ " + " ++ eventTitle
    else if currentTitle ≠ "" then currentTitle else eventTitle
  let c1 := if cm.title.isSome then { cm with title := some combinedTitle } else cm
  let c2 := if c1.summary.isSome then { c1 with summary := some combinedTitle } else c1
  let c3 := if c2.name.isSome then { c2 with name := some combinedTitle } else c2
  let c4 :=
    if jsFalsyS c3.title ∧ jsFalsyS c3.summary ∧ jsFalsyS c3.name then
      { c3 with title := some combinedTitle }
    else c3
  let currentDesc := getEventDescription c4
  let eventDesc := getEventDescription e
  if currentDesc ≠ "" ∨ eventDesc ≠ "" then
    let combinedDesc :=
      if currentDesc ≠ "" ∧ eventDesc ≠ "" then currentDesc ++ "\n\n" ++ eventDesc
      else if currentDesc ≠ "" then currentDesc else eventDesc
    let d1 := if c4.description.isSome then { c4 with description := some combinedDesc } else c4
    let d2 := if d1.desc.isSome then { d1 with desc := some combinedDesc } else d1
    if jsFalsyS d2.description ∧ jsFalsyS d2.desc then
      { d2 with description := some combinedDesc }
    else d2
  else c4

/-- Merge-step end-time update: every end-time alias already present on the
retained event is overwritten with the absorbed event's raw end value, with a
fallback write into `end` when every alias is still falsy afterwards.  (The
source also computes an `originalEndField` name that it never uses.) -/
def updateEndFields (cm : Event) (newEnd : Option String) : Event :=
  let u1 := if cm.endF.isSome then { cm with endF := newEnd } else cm
  let u2 := if u1.endDate.isSome then { u1 with endDate := newEnd } else u1
  let u3 := if u2.end_time.isSome then { u2 with end_time := newEnd } else u2
  let u4 := if u3.endTime.isSome then { u3 with endTime := newEnd } else u3
  let u5 := if u4.dtend.isSome then { u4 with dtend := newEnd } else u4
  let u6 := if u5.end_date.isSome then { u5 with end_date := newEnd } else u5
  let u7 := if u6.dateEnd.isSome then { u6 with dateEnd := newEnd } else u6
  let u8 := if u7.date_end.isSome then { u7 with date_end := newEnd } else u7
  if jsFalsyS u8.endF ∧ jsFalsyS u8.endDate ∧ jsFalsyS u8.end_time ∧
      jsFalsyS u8.endTime ∧ jsFalsyS u8.dtend ∧ jsFalsyS u8.end_date ∧
      jsFalsyS u8.dateEnd ∧ jsFalsyS u8.date_end then
    { u8 with endF := newEnd }
  else u8

/-- One absorption of `e` into the running merge `cm` (source
`mergeConsecutiveEvents`, body of the consecutive case): a non-public side
forces a full re-redaction, otherwise titles and descriptions are combined;
then the end-time aliases are advanced to `e`'s raw end value. -/
def mergeInto (cm e : Event) (newEnd : Option String) : Event :=
  let cm1 :=
    if cm._isNonPublic || !(isPublicEvent cm) || e._isNonPublic || !(isPublicEvent e) then
      removeAllEventInfo cm
    else mergeTitlesDescs cm e
  updateEndFields cm1 newEnd

/-- The sequential scan of one sorted calendar group (source
`mergeConsecutiveEvents`): an event without resolvable start or end flushes
the running merge and is emitted as is; otherwise it either starts a run, is
absorbed when the normalized times touch, or flushes the run. -/
def runMerge (P : DateProvider) : Option Event → List Event → List Event
  | cur, [] => cur.toList
  | cur, e :: rest =>
    let startTime := getEventTime e .startF
    let endTime := getEventTime e .endF
    if jsFalsyS startTime || jsFalsyS endTime then
      cur.toList ++ e :: runMerge P none rest
    else
      match cur with
      | none => runMerge P (some e) rest
      | some cm =>
        let nEnd := normalizeDate P (getEventTime cm .endF)
        let nStart := normalizeDate P startTime
        if jsTruthyS nEnd && jsTruthyS nStart && nEnd == nStart then
          runMerge P (some (mergeInto cm e endTime)) rest
        else
          cm :: runMerge P (some e) rest

/-- Source `mergeConsecutiveEvents`: declined filtering, visibility
sanitization, grouping by calendar, and the per-group sorted merge scan. -/
def mergeConsecutiveEvents (P : DateProvider) (events : List Event)
    (userEmails : List String) : List Event :=
  if events = [] then events
  else
    let filteredEvents := filterDeclinedEvents events userEmails
    let sanitizedEvents := filteredEvents.map sanitizeNonPublicEvent
    let groups := groupByCalendar sanitizedEvents
    groups.flatMap (fun g => runMerge P none (jsSortEvents P g.2))

/-! ## Worker request handling (source: `fetch` and `sanitizeResponse`)

Requests and responses are modelled structurally.  Body rewriting
(`JSON.parse`/`stringify` plus regex redaction and the console-filter
injection) goes through the platform JSON and regex engines and is abstracted
as a record of body transforms; the claims below concern routing, status
codes and headers, which are modelled faithfully. -/

/-- An HTTP response: status, headers (ordered pairs), body. -/
structure MResponse where
  status : Nat
  headers : List (String × String)
  body : String
  deriving DecidableEq, Repr

/-- An inbound request: pathname, query parameters, headers. -/
structure MRequest where
  pathname : String
  searchParams : List (String × String)
  headers : List (String × String)
  deriving DecidableEq, Repr

/-- The request the worker sends upstream: target path, query parameters,
forwarded headers. -/
structure UpstreamReq where
  path : String
  params : List (String × String)
  headers : List (String × String)
  deriving DecidableEq, Repr

/-- Case-insensitive header lookup (models `Headers.get`). -/
def headerGet (hs : List (String × String)) (k : String) : Option String :=
  (hs.find? (fun kv => lowerS kv.1 = lowerS k)).map (fun kv => kv.2)

/-- Case-insensitive header overwrite (models `Headers.set`). -/
def headerSet (hs : List (String × String)) (k v : String) : List (String × String) :=
  hs.filter (fun kv => lowerS kv.1 ≠ lowerS k) ++ [(k, v)]

/-- Header forwarding loop of the source: drop `host`, `cf-ray` and
`cf-connecting-ip`, keep everything else via `Headers.set`. -/
def forwardedHeaders (hs : List (String × String)) : List (String × String) :=
  hs.foldl (fun acc kv =>
    if lowerS kv.1 = "host" ∨ lowerS kv.1 = "cf-ray" ∨ lowerS kv.1 = "cf-connecting-ip"
    then acc else headerSet acc kv.1 kv.2) []

/-- Abstracted body rewriting of `sanitizeResponse`: the calendar-events JSON
processing (given the configured user emails), the console-filter injection
for HTML, and the regex URL redaction applied to every rewritten body. -/
structure BodyFns where
  processEventsJson : List String → String → String
  injectConsole : String → String
  redactUrls : String → String

/-- Source `sanitizeResponse` (current worker): deny calendar files by
content type or exact-case path suffix, pass non-HTML/JSON bodies through
with only the CORS header added, and otherwise rewrite the body and add the
CORS header. -/
def sanitizeResponse (B : BodyFns) (resp : MResponse) (pathname : String)
    (userEmails : List String) : MResponse :=
  let contentType := (headerGet resp.headers "content-type").getD ""
  if containsSubS contentType "text/calendar" || containsSubS contentType "application/ics" ||
      endsWithS pathname ".ics" || endsWithS pathname ".ICAL" || endsWithS pathname ".iCal" then
    ⟨403, [("Content-Type", "text/plain"), ("Access-Control-Allow-Origin", "*")],
      "Calendar file download is not allowed"⟩
  else if !(containsSubS contentType "text/html") && !(containsSubS contentType "application/json") then
    ⟨resp.status, headerSet resp.headers "Access-Control-Allow-Origin" "*", resp.body⟩
  else
    let isCalendarEventsEndpoint := pathname = "/calendar.events.json" ||
      pathname = "/calendar.json" || endsWithS pathname ".events.json" ||
      endsWithS pathname ".json"
    let b1 := if containsSubS contentType "application/json" && isCalendarEventsEndpoint
      then B.processEventsJson userEmails resp.body else resp.body
    let b2 := if containsSubS contentType "text/html" then B.injectConsole b1 else b1
    let b3 := B.redactUrls b2
    ⟨resp.status, headerSet resp.headers "Access-Control-Allow-Origin" "*", b3⟩

/-- Worker environment secrets. -/
structure WorkerEnv where
  ENCRYPTION_KEY : Option String := none
  CALENDAR_URL : Option String := none
  USER_EMAILS : Option String := none

/-- The decrypt-and-collect loop over the configured source list: plain URLs
pass through, `fernet://` URLs are decrypted, and a failure short-circuits
with the 500 response the source returns there. -/
def decryptUrlList (p : CryptoProvider) (urls : List String)
    (encryptionKey : Option String) : Except MResponse (List String) :=
  match urls with
  | [] => .ok []
  | u :: rest =>
    if startsWithS u "fernet://" then
      if jsFalsyS encryptionKey then
        .error ⟨500, [("Content-Type", "text/plain")],
          "ENCRYPTION_KEY not configured (required for fernet:// URLs)"⟩
      else
        match decryptFernetUrl p u (encryptionKey.getD "") with
        | .error msg =>
          .error ⟨500, [("Content-Type", "text/plain")],
            "Failed to decrypt calendar URL: " ++ msg⟩
        | .ok d => (decryptUrlList p rest encryptionKey).map (fun ds => d :: ds)
    else (decryptUrlList p rest encryptionKey).map (fun ds => u :: ds)

/-- Source `fetch` of the current worker (the one that reads `CALENDAR_URL`):
configuration checks, the calendar-file deny, classification into API, main
page and static passthrough, upstream forwarding and response sanitization.
The model is pure, so the top-level `catch` has no throwing body left to
guard; the error responses it would produce are exactly the 500 responses
modelled at the points where the source throws or returns. -/
def workerFetch (p : CryptoProvider) (B : BodyFns) (env : WorkerEnv) (req : MRequest)
    (upstream : UpstreamReq → MResponse) : MResponse :=
  let userEmails := parseUserEmails env.USER_EMAILS
  if jsFalsyS env.CALENDAR_URL then
    ⟨500, [("Content-Type", "text/plain")],
      "CALENDAR_URL not configured in Cloudflare Worker secrets"⟩
  else
    let calendarUrls := ((splitOnS (env.CALENDAR_URL.getD "") ",").map trimS).filter
      (fun s => s ≠ "")
    let hasFernetUrls := calendarUrls.any (fun u => startsWithS u "fernet://")
    if hasFernetUrls && jsFalsyS env.ENCRYPTION_KEY then
      ⟨500, [("Content-Type", "text/plain")],
        "ENCRYPTION_KEY not configured (required for fernet:// URLs)"⟩
    else
      let pathname := req.pathname
      if endsWithS pathname ".ics" || endsWithS pathname ".ICAL" || endsWithS pathname ".iCal" then
        ⟨403, [("Content-Type", "text/plain"), ("Access-Control-Allow-Origin", "*")],
          "Calendar file download is not allowed"⟩
      else
        let isMainCalendarPage := pathname = "/" || pathname = "/calendar.html" ||
          endsWithS pathname "/calendar.html" || pathname = ""
        let isApiEndpoint := pathname = "/srcdoc" || startsWithS pathname "/srcdoc" ||
          pathname = "/calendar.events.json" || pathname = "/calendar.json" ||
          endsWithS pathname ".events.json" || endsWithS pathname ".json"
        if isApiEndpoint then
          match decryptUrlList p calendarUrls env.ENCRYPTION_KEY with
          | .error r => r
          | .ok decryptedUrls =>
            let target : UpstreamReq := ⟨pathname,
              (req.searchParams.filter (fun kv => kv.1 ≠ "url")) ++
                decryptedUrls.map (fun d => ("url", d)),
              forwardedHeaders req.headers⟩
            sanitizeResponse B (upstream target) pathname userEmails
        else if isMainCalendarPage then
          match decryptUrlList p calendarUrls env.ENCRYPTION_KEY with
          | .error r => r
          | .ok decryptedUrls =>
            let target : UpstreamReq := ⟨"/calendar.html",
              (req.searchParams.filter (fun kv => kv.1 ≠ "url")) ++
                decryptedUrls.map (fun d => ("url", d)),
              [("User-Agent", jsValOr (headerGet req.headers "User-Agent") "Cloudflare-Worker")]⟩
            sanitizeResponse B (upstream target) pathname userEmails
        else
          let targetPath := if pathname = "/" ∨ pathname = "" then "/calendar.html" else pathname
          let target : UpstreamReq := ⟨targetPath, req.searchParams, forwardedHeaders req.headers⟩
          sanitizeResponse B (upstream target) pathname userEmails

/-! ## Per-request source resolution (source: the earlier worker's `fetch`,
query-cookie-referer section)

`decodeURIComponent` and the URL constructor applied to the Referer header
are platform calls, abstracted as parameters (`none` models a throw). -/

/-- All values of a repeated query parameter (models `searchParams.getAll`). -/
def getAllParams (params : List (String × String)) (k : String) : List String :=
  (params.filter (fun kv => kv.1 = k)).map (fun kv => kv.2)

/-- The cookie-header parse of the source: split on `;`, trim, split each
segment on `=`, first part is the key, second part (possibly missing) the
value. -/
def parseCookiePairs (cookieHeader : String) : List (String × Option String) :=
  (splitOnS cookieHeader ";").map (fun c =>
    let parts := splitOnS (trimS c) "="
    (parts.headD "", parts.get? 1))

/-- Last-write-wins lookup (the source accumulates the pairs into one JS
object, so a later duplicate key overwrites an earlier one). -/
def cookieValue (pairs : List (String × Option String)) (k : String) : Option (Option String) :=
  (pairs.reverse.find? (fun kv => kv.1 = k)).map (fun kv => kv.2)

/-- The query-parameter carrier: the request's own `url` parameters. -/
def queryCarrier (req : MRequest) : List String :=
  getAllParams req.searchParams "url"

/-- The cookie carrier: the percent-decoded, pipe-split `owc_urls` cookie
(empty on a missing header, missing or falsy cookie, or a decode throw). -/
def cookieCarrier (pctDecode : String → Option String) (req : MRequest) : List String :=
  match headerGet req.headers "Cookie" with
  | none => []
  | some ch =>
    if ch = "" then []
    else
      match cookieValue (parseCookiePairs ch) "owc_urls" with
      | some (some v) =>
        if v ≠ "" then
          match pctDecode v with
          | some decoded => splitOnS decoded "|"
          | none => []
        else []
      | _ => []

/-- The referer carrier: the `url` parameters of the parsed Referer header
(empty on a missing or falsy header or a URL-parse throw). -/
def refererCarrier (refererUrlParams : String → Option (List String)) (req : MRequest) :
    List String :=
  match headerGet req.headers "Referer" with
  | none => []
  | some rh =>
    if rh ≠ "" then
      match refererUrlParams rh with
      | some urls => urls
      | none => []
    else []

/-- Source resolution of the earlier worker's API branch, verbatim: take the
query `url` parameters; if none, try the `owc_urls` cookie; if still none,
try the Referer header's `url` parameters. -/
def resolveApiSources (pctDecode : String → Option String)
    (refererUrlParams : String → Option (List String)) (req : MRequest) : List String :=
  let u1 := queryCarrier req
  let u2 :=
    if u1.length = 0 then
      match headerGet req.headers "Cookie" with
      | none => u1
      | some ch =>
        if ch = "" then u1
        else
          match cookieValue (parseCookiePairs ch) "owc_urls" with
          | some (some v) =>
            if v ≠ "" then
              match pctDecode v with
              | some decoded => splitOnS decoded "|"
              | none => u1
            else u1
          | _ => u1
    else u1
  if u2.length = 0 then
    match headerGet req.headers "Referer" with
    | none => u2
    | some rh =>
      if rh ≠ "" then
        match refererUrlParams rh with
        | some urls => urls
        | none => u2
      else u2
  else u2

/-- Modelled from the spec: the claimed per-request resolution priority of
§4.2, including its second carrier, "a persisted configuration value",
which has no counterpart in the per-request worker's code. -/
def resolveApiSourcesSpec (pctDecode : String → Option String)
    (refererUrlParams : String → Option (List String)) (configSources : List String)
    (req : MRequest) : List String :=
  if queryCarrier req ≠ [] then queryCarrier req
  else if configSources ≠ [] then configSources
  else if cookieCarrier pctDecode req ≠ [] then cookieCarrier pctDecode req
  else refererCarrier refererUrlParams req

/-- The amended resolution order: query parameters, else cookie snapshot,
else Referer parameters, first non-empty carrier winning, no merging. -/
def resolveApiSourcesAmended (pctDecode : String → Option String)
    (refererUrlParams : String → Option (List String)) (req : MRequest) : List String :=
  if queryCarrier req ≠ [] then queryCarrier req
  else if cookieCarrier pctDecode req ≠ [] then cookieCarrier pctDecode req
  else refererCarrier refererUrlParams req

/-! ## Concrete stand-ins used by witnesses and counterexamples

The abstract platform primitives are instantiated with simple executable
functions that satisfy the assumed algebraic properties, so that every
hypothesis of a claim theorem can be discharged on concrete input. -/

/-- Executable witness provider: a keyed checksum stand-in for HMAC (thirty
two bytes, message-dependent), the identity cipher, and the code-point text
codec. -/
def plainProvider : CryptoProvider where
  hmacSha256 := fun _ m => ((m.map (fun b => b % 256)) ++ List.replicate 32 0).take 32
  aesCbcEncrypt := fun _ _ m => m
  aesCbcDecrypt := fun _ _ c => some c
  utf8Encode := fun s => s.data.map Char.toNat
  utf8Decode := fun bs => String.mk (bs.map Char.ofNat)

/-- Executable witness date provider: decimal strings as epoch values. -/
def plainDates : DateProvider where
  parseDate := fun s =>
    if s.data ≠ [] ∧ s.data.all Char.isDigit then
      some ((s.data.foldl (fun acc c => acc * 10 + (c.toNat - 48)) 0 : Nat) : Int)
    else none
  dateToIso := fun t => toString t

/-- Identity body transforms for witnesses. -/
def idBodyFns : BodyFns where
  processEventsJson := fun _ b => b
  injectConsole := fun b => b
  redactUrls := fun b => b

/-- URL-safe base64 encoding of thirty-two zero bytes (a witness secret). -/
def zeroSecret : String := "AAAAAAAAAAAAAAAAAAAAAAAAAAAAAAAAAAAAAAAAAAA="

/-- The raw iCal fragment of the declined-attendee scenario of claim C6. -/
def declinedIcal : String :=
  "BEGIN:VEVENT\nATTENDEE;PARTSTAT=DECLINED:mailto:alice@example.com\nEND:VEVENT"

/-- An event whose only populated field is the declined-attendee fragment. -/
def declinedEvent : Event := { ical := some declinedIcal }

/-- Ciphertext component of the reference construction of spec §4.1:
AES-128-CBC (PKCS7 padded) under the secret's last sixteen bytes. -/
def fernetCiphertext (p : CryptoProvider) (sb iv : List Nat) (plaintext : String) : List Nat :=
  p.aesCbcEncrypt (sb.drop 16) iv (p.utf8Encode plaintext)

/-- Tag component of the reference construction of spec §4.1: HMAC-SHA256
under the secret's first sixteen bytes over version, timestamp, IV and
ciphertext. -/
def fernetTag (p : CryptoProvider) (sb ts iv ct : List Nat) : List Nat :=
  p.hmacSha256 (sb.take 16) (0x80 :: (ts ++ iv ++ ct))

/-! ## Base64 roundtrip lemmas -/

theorem b64DecodeChar_urlToStd : ∀ n, n < 64 → b64DecodeChar (urlToStd (b64UrlChar n)) = some n := by
  decide

theorem urlToStd_b64UrlChar_ne : ∀ n, n < 64 → urlToStd (b64UrlChar n) ≠ '=' := by
  decide

theorem urlToStdPad : urlToStd '=' = '=' := rfl

theorem b64EncodeChunks_len : ∀ bs : List Nat, (b64EncodeChunks bs).length % 4 = 0 := by
  intro bs
  induction bs using b64EncodeChunks.induct <;> (simp [b64EncodeChunks, *]; try omega)

theorem atob_encode : ∀ bs : List Nat, (∀ b ∈ bs, b < 256) →
    atobChunks ((b64EncodeChunks bs).map urlToStd) = some bs := by
  intro bs
  induction bs using b64EncodeChunks.induct with
  | case1 => intro _; rfl
  | case2 a =>
    intro h
    have ha : a < 256 := h a (by simp)
    have h1 : a / 4 < 64 := by omega
    have h2 : a % 4 * 16 < 64 := by omega
    simp [b64EncodeChunks, atobChunks, urlToStdPad,
      b64DecodeChar_urlToStd _ h1, b64DecodeChar_urlToStd _ h2, Option.bind]
    omega
  | case3 a b =>
    intro h
    have ha : a < 256 := h a (by simp)
    have hb : b < 256 := h b (by simp)
    have h1 : a / 4 < 64 := by omega
    have h2 : a % 4 * 16 + b / 16 < 64 := by omega
    have h3 : b % 16 * 4 < 64 := by omega
    simp [b64EncodeChunks, atobChunks, urlToStdPad,
      b64DecodeChar_urlToStd _ h1, b64DecodeChar_urlToStd _ h2, b64DecodeChar_urlToStd _ h3,
      urlToStd_b64UrlChar_ne _ h3, Option.bind]
    constructor <;> omega
  | case4 a b c rest ih =>
    intro h
    have ha : a < 256 := h a (by simp)
    have hb : b < 256 := h b (by simp)
    have hc : c < 256 := h c (by simp)
    have h1 : a / 4 < 64 := by omega
    have h2 : a % 4 * 16 + b / 16 < 64 := by omega
    have h3 : b % 16 * 4 + c / 64 < 64 := by omega
    have h4 : c % 64 < 64 := by omega
    have htail := ih (fun x hx => h x (by simp [hx]))
    simp [b64EncodeChunks, atobChunks,
      b64DecodeChar_urlToStd _ h1, b64DecodeChar_urlToStd _ h2,
      b64DecodeChar_urlToStd _ h3, b64DecodeChar_urlToStd _ h4,
      urlToStd_b64UrlChar_ne _ h3, urlToStd_b64UrlChar_ne _ h4, htail, Option.bind]
    refine ⟨by omega, by omega, by omega⟩

theorem padBase64_of_mod (cs : List Char) (h : cs.length % 4 = 0) : padBase64 cs = cs := by
  simp [padBase64, h]

theorem base64UrlDecode_encode (bs : List Nat) (h : ∀ b ∈ bs, b < 256) :
    base64UrlDecode (base64UrlEncode bs) = some bs := by
  show atobChunks (padBase64 ((String.mk (b64EncodeChunks bs)).data.map urlToStd)) = some bs
  have hd : (String.mk (b64EncodeChunks bs)).data = b64EncodeChunks bs := rfl
  rw [hd, padBase64_of_mod _ (by simp [b64EncodeChunks_len]), atob_encode bs h]

/-! ## Structure of a decrypted token -/

/-- The source's byte-by-byte HMAC comparison agrees with list equality when
both tags have the expected thirty-two bytes. -/
theorem hmacValid_eq (computed tag : List Nat) (h1 : computed.length = 32)
    (h2 : tag.length = 32) :
    ((computed.length == tag.length) &&
      (List.range 32).all (fun i => computed.get? i == tag.get? i)) = true ↔
    computed = tag := by
  constructor
  · intro h
    simp only [Bool.and_eq_true] at h
    rcases h with ⟨-, hall⟩
    refine List.ext_get? (fun n => ?_)
    by_cases hn : n < 32
    · have := List.all_eq_true.1 hall n (by simpa using hn)
      exact beq_iff_eq.1 this
    · rw [List.get?_eq_none.2 (by omega), List.get?_eq_none.2 (by omega)]
  · rintro rfl
    simp

/-- Evaluation of `decryptFernetToken` on a token of the canonical shape,
for an arbitrary final tag: the decode succeeds through the length, version
and secret checks, and then hinges on whether the recomputed HMAC equals the
embedded tag. -/
theorem decryptFernetToken_structured
    (p : CryptoProvider) (secret : String) (sb ts iv ct tag : List Nat)
    (hsec : base64UrlDecode secret = some sb) (hsb : sb.length = 32)
    (hts : ts.length = 8) (hiv : iv.length = 16)
    (hts2 : ∀ b ∈ ts, b < 256) (hiv2 : ∀ b ∈ iv, b < 256)
    (hct2 : ∀ b ∈ ct, b < 256) (htag2 : ∀ b ∈ tag, b < 256)
    (htagl : tag.length = 32)
    (hcl : (p.hmacSha256 (sb.take 16) (0x80 :: (ts ++ iv ++ ct))).length = 32) :
    decryptFernetToken p (base64UrlEncode ((0x80 :: (ts ++ iv ++ ct)) ++ tag)) secret =
      if p.hmacSha256 (sb.take 16) (0x80 :: (ts ++ iv ++ ct)) = tag then
        match p.aesCbcDecrypt ((sb.drop 16).take 16) iv ct with
        | none => Except.error "Fernet decryption failed: AES decryption error"
        | some plainBytes => Except.ok (p.utf8Decode plainBytes)
      else Except.error "Fernet decryption failed: Invalid Fernet token: HMAC verification failed" := by
  have hbounds : ∀ b ∈ (0x80 :: (ts ++ iv ++ ct)) ++ tag, b < 256 := by
    intro b hb
    rcases List.mem_append.1 hb with h | h
    · rcases List.mem_cons.1 h with rfl | h
      · omega
      · rcases List.mem_append.1 h with h' | h'
        · rcases List.mem_append.1 h' with h'' | h''
          · exact hts2 _ h''
          · exact hiv2 _ h''
        · exact hct2 _ h'
    · exact htag2 _ h
  have hlen : ((0x80 :: (ts ++ iv ++ ct)) ++ tag).length = 57 + ct.length := by
    simp [hts, hiv, htagl]; omega
  have hdec := base64UrlDecode_encode _ hbounds
  have e1 : ((0x80 :: (ts ++ iv ++ ct)) ++ tag).length - 32 = (0x80 :: (ts ++ iv ++ ct)).length := by
    simp [htagl]
    omega
  have eTag : ((0x80 :: (ts ++ iv ++ ct)) ++ tag).drop
      (((0x80 :: (ts ++ iv ++ ct)) ++ tag).length - 32) = tag := by
    rw [e1, List.drop_left]
  have eMsg : ((0x80 :: (ts ++ iv ++ ct)) ++ tag).take
      (((0x80 :: (ts ++ iv ++ ct)) ++ tag).length - 32) = 0x80 :: (ts ++ iv ++ ct) := by
    rw [e1, List.take_left]
  have eCt : (0x80 :: (ts ++ iv ++ ct)).drop 25 = ct := by
    have hsplit : (0x80 :: (ts ++ iv ++ ct)) = (0x80 :: (ts ++ iv)) ++ ct := by simp
    have h25 : (25 : Nat) = (0x80 :: (ts ++ iv)).length := by simp [hts, hiv]
    rw [hsplit, h25, List.drop_left]
  have eIv : (((0x80 :: (ts ++ iv ++ ct)) ++ tag).drop 9).take 16 = iv := by
    have hsplit : (0x80 :: (ts ++ iv ++ ct)) ++ tag = (0x80 :: ts) ++ (iv ++ (ct ++ tag)) := by
      simp
    have h9 : (9 : Nat) = (0x80 :: ts).length := by simp [hts]
    rw [hsplit, h9, List.drop_left]
    have h16 : (16 : Nat) = iv.length := hiv.symm
    rw [h16, List.take_left]
  have h57 : ¬(((0x80 :: (ts ++ iv ++ ct)) ++ tag).length < 57) := by rw [hlen]; omega
  have hv : ¬(((0x80 :: (ts ++ iv ++ ct)) ++ tag).getD 0 0 ≠ 0x80) := by simp
  simp only [decryptFernetToken, hdec]
  rw [if_neg h57, if_neg hv]
  simp only [hsec]
  rw [if_neg (by simp [hsb])]
  simp only [eTag, eMsg, eCt, eIv]
  by_cases hEq : p.hmacSha256 (sb.take 16) (0x80 :: (ts ++ iv ++ ct)) = tag
  · rw [hEq, if_pos rfl]
    have hval : ((tag.length == tag.length) &&
        (List.range 32).all (fun i => tag.get? i == tag.get? i)) = true := by simp
    rw [hval]
    simp
  · rw [if_neg hEq]
    have hval : (((p.hmacSha256 (sb.take 16) (0x80 :: (ts ++ iv ++ ct))).length == tag.length) &&
        (List.range 32).all (fun i =>
          (p.hmacSha256 (sb.take 16) (0x80 :: (ts ++ iv ++ ct))).get? i == tag.get? i)) = false := by
      cases hb : (((p.hmacSha256 (sb.take 16) (0x80 :: (ts ++ iv ++ ct))).length == tag.length) &&
        (List.range 32).all (fun i =>
          (p.hmacSha256 (sb.take 16) (0x80 :: (ts ++ iv ++ ct))).get? i == tag.get? i)) with
      | false => rfl
      | true => exact absurd ((hmacValid_eq _ _ hcl htagl).1 hb) hEq
    rw [hval]
    simp

/-! ## Claim C1: decrypt inverts the reference encoding -/

theorem plainProviderOK : CryptoProviderOK plainProvider := by
  constructor
  · intro k m
    simp [plainProvider]
  · intro k m b hb
    simp only [plainProvider] at hb
    rcases List.mem_append.1 (List.mem_of_mem_take hb) with h | h
    · rcases List.mem_map.1 h with ⟨x, -, rfl⟩
      omega
    · rw [List.eq_of_mem_replicate h]
      omega
  · intro k iv m h b hb
    exact h b hb
  · intro k iv m
    rfl
  · intro s
    show String.mk ((s.data.map Char.toNat).map Char.ofNat) = s
    rw [List.map_map]
    have : (Char.ofNat ∘ Char.toNat) = id := by
      funext c
      exact Char.ofNat_toNat c
    rw [this, List.map_id]

/-- C1: for every secret that base64url-decodes to exactly 32 bytes and every
plaintext, `decryptFernetToken` applied to the reference token construction
of §4.1 (version `0x80`, eight timestamp bytes, sixteen IV bytes, AES-128-CBC
ciphertext under the secret's last sixteen bytes, HMAC-SHA256 tag under the
secret's first sixteen bytes over everything preceding it) under the same
secret returns the original plaintext, assuming the platform crypto
primitives satisfy their standard inverse properties. -/
theorem c1_fernet_decode_encode (p : CryptoProvider) (hp : CryptoProviderOK p)
    (secret : String) (sb : List Nat) (hsec : base64UrlDecode secret = some sb)
    (hsb : sb.length = 32) (ts iv : List Nat) (hts : ts.length = 8) (hiv : iv.length = 16)
    (hts2 : ∀ b ∈ ts, b < 256) (hiv2 : ∀ b ∈ iv, b < 256) (plaintext : String)
    (hpt : ∀ b ∈ p.utf8Encode plaintext, b < 256) :
    decryptFernetToken p (encodeFernetToken p sb ts iv plaintext) secret =
      Except.ok plaintext := by
  have hct2 := hp.enc_lt (sb.drop 16) iv _ hpt
  have h := decryptFernetToken_structured p secret sb ts iv
    (p.aesCbcEncrypt (sb.drop 16) iv (p.utf8Encode plaintext))
    (p.hmacSha256 (sb.take 16)
      (0x80 :: (ts ++ iv ++ p.aesCbcEncrypt (sb.drop 16) iv (p.utf8Encode plaintext))))
    hsec hsb hts hiv hts2 hiv2 hct2 (hp.hmac_lt _ _) (hp.hmac_len _ _) (hp.hmac_len _ _)
  have henc : encodeFernetToken p sb ts iv plaintext =
      base64UrlEncode
        ((0x80 :: (ts ++ iv ++ p.aesCbcEncrypt (sb.drop 16) iv (p.utf8Encode plaintext))) ++
          p.hmacSha256 (sb.take 16)
            (0x80 :: (ts ++ iv ++ p.aesCbcEncrypt (sb.drop 16) iv (p.utf8Encode plaintext)))) := rfl
  rw [henc, h, if_pos rfl]
  have h16 : (sb.drop 16).take 16 = sb.drop 16 :=
    List.take_of_length_le (by simp [hsb])
  rw [h16, hp.dec_enc]
  simp [hp.utf8_inv]

/-- Witness for C1: the concrete zero secret, zero timestamp and IV, and the
plaintext "ok" under the executable witness provider. -/
theorem c1_fernet_decode_encode_witness :
    decryptFernetToken plainProvider
      (encodeFernetToken plainProvider (List.replicate 32 0) (List.replicate 8 0)
        (List.replicate 16 0) "ok") zeroSecret = Except.ok "ok" :=
  c1_fernet_decode_encode plainProvider plainProviderOK zeroSecret (List.replicate 32 0)
    (by decide) (by decide) (List.replicate 8 0) (List.replicate 16 0) (by decide) (by decide)
    (by decide) (by decide) "ok" (by decide)

/-! ## Claim C2: the error cases of token decoding -/

/-- C2: `decryptFernetToken` fails (raises a DecodeError) whenever: the
decoded token is shorter than 57 bytes; the first decoded byte is not
`0x80`; the secret does not base64url-decode to exactly 32 bytes; a validly
constructed token is altered at any byte of the trailing 32-byte tag region;
or it is altered at any byte of the ciphertext region — the last case under
the standing assumption that HMAC-SHA256 does not collide on the two
messages involved. -/
theorem c2_fernet_decode_errors :
    (∀ (p : CryptoProvider) (t s : String) (bs : List Nat),
      base64UrlDecode t = some bs → bs.length < 57 →
      (decryptFernetToken p t s).isOk = false) ∧
    (∀ (p : CryptoProvider) (t s : String) (bs : List Nat),
      base64UrlDecode t = some bs → bs.get? 0 ≠ some 0x80 →
      (decryptFernetToken p t s).isOk = false) ∧
    (∀ (p : CryptoProvider) (t s : String),
      (∀ sb, base64UrlDecode s = some sb → sb.length ≠ 32) →
      (decryptFernetToken p t s).isOk = false) ∧
    (∀ (p : CryptoProvider), CryptoProviderOK p →
      ∀ (secret : String) (sb : List Nat),
      base64UrlDecode secret = some sb → sb.length = 32 →
      ∀ (ts iv : List Nat), ts.length = 8 → iv.length = 16 →
      (∀ b ∈ ts, b < 256) → (∀ b ∈ iv, b < 256) →
      ∀ (plaintext : String), (∀ b ∈ p.utf8Encode plaintext, b < 256) →
      ∀ (j v : Nat), j < 32 → v < 256 →
      (fernetTag p sb ts iv (fernetCiphertext p sb iv plaintext)).get? j ≠ some v →
      (decryptFernetToken p
        (base64UrlEncode ((0x80 :: (ts ++ iv ++ fernetCiphertext p sb iv plaintext)) ++
          (fernetTag p sb ts iv (fernetCiphertext p sb iv plaintext)).set j v))
        secret).isOk = false) ∧
    (∀ (p : CryptoProvider), CryptoProviderOK p →
      ∀ (secret : String) (sb : List Nat),
      base64UrlDecode secret = some sb → sb.length = 32 →
      ∀ (ts iv : List Nat), ts.length = 8 → iv.length = 16 →
      (∀ b ∈ ts, b < 256) → (∀ b ∈ iv, b < 256) →
      ∀ (plaintext : String), (∀ b ∈ p.utf8Encode plaintext, b < 256) →
      ∀ (j v : Nat), j < (fernetCiphertext p sb iv plaintext).length → v < 256 →
      fernetTag p sb ts iv ((fernetCiphertext p sb iv plaintext).set j v) ≠
        fernetTag p sb ts iv (fernetCiphertext p sb iv plaintext) →
      (decryptFernetToken p
        (base64UrlEncode ((0x80 :: (ts ++ iv ++ (fernetCiphertext p sb iv plaintext).set j v)) ++
          fernetTag p sb ts iv (fernetCiphertext p sb iv plaintext)))
        secret).isOk = false) := by
  refine ⟨?_, ?_, ?_, ?_, ?_⟩
  · intro p t s bs h1 h2
    simp only [decryptFernetToken, h1]
    rw [if_pos h2]
    rfl
  · intro p t s bs h1 h2
    simp only [decryptFernetToken, h1]
    by_cases h57 : bs.length < 57
    · rw [if_pos h57]; rfl
    · rw [if_neg h57]
      have hv : bs.getD 0 0 ≠ 0x80 := by
        intro hv
        apply h2
        have hpos : 0 < bs.length := by omega
        rw [List.getD_eq_getElem?_getD, List.getElem?_eq_getElem hpos] at hv
        rw [List.get?_eq_getElem?, List.getElem?_eq_getElem hpos]
        simpa using hv
      rw [if_pos hv]
      rfl
  · intro p t s h
    cases hbt : base64UrlDecode t with
    | none => simp only [decryptFernetToken, hbt]; rfl
    | some bs =>
      cases hbs : base64UrlDecode s with
      | none =>
        simp only [decryptFernetToken, hbt, hbs]
        by_cases h57 : bs.length < 57
        · rw [if_pos h57]; rfl
        · rw [if_neg h57]
          by_cases hv : bs.getD 0 0 ≠ 0x80
          · rw [if_pos hv]; rfl
          · rw [if_neg hv]; rfl
      | some sb =>
        simp only [decryptFernetToken, hbt, hbs]
        by_cases h57 : bs.length < 57
        · rw [if_pos h57]; rfl
        · rw [if_neg h57]
          by_cases hv : bs.getD 0 0 ≠ 0x80
          · rw [if_pos hv]; rfl
          · rw [if_neg hv]
            rw [if_pos (h sb hbs)]
            rfl
  · intro p hp secret sb hsec hsb ts iv hts hiv hts2 hiv2 plaintext hpt j v hj hv hne
    have hct2 : ∀ b ∈ fernetCiphertext p sb iv plaintext, b < 256 :=
      hp.enc_lt (sb.drop 16) iv _ hpt
    have htag2 : ∀ b ∈ (fernetTag p sb ts iv (fernetCiphertext p sb iv plaintext)).set j v,
        b < 256 := by
      intro b hb
      rcases List.mem_or_eq_of_mem_set hb with h | rfl
      · exact hp.hmac_lt _ _ b h
      · exact hv
    have htagl : ((fernetTag p sb ts iv (fernetCiphertext p sb iv plaintext)).set j v).length
        = 32 := by
      simp [fernetTag, hp.hmac_len]
    have h := decryptFernetToken_structured p secret sb ts iv
      (fernetCiphertext p sb iv plaintext)
      ((fernetTag p sb ts iv (fernetCiphertext p sb iv plaintext)).set j v)
      hsec hsb hts hiv hts2 hiv2 hct2 htag2 htagl (hp.hmac_len _ _)
    rw [h]
    have hne2 : p.hmacSha256 (sb.take 16) (0x80 :: (ts ++ iv ++ fernetCiphertext p sb iv plaintext)) ≠
        (fernetTag p sb ts iv (fernetCiphertext p sb iv plaintext)).set j v := by
      intro heq
      apply hne
      have hjlen : j < (fernetTag p sb ts iv (fernetCiphertext p sb iv plaintext)).length := by
        simp [fernetTag, hp.hmac_len]; omega
      have : ((fernetTag p sb ts iv (fernetCiphertext p sb iv plaintext)).set j v).get? j
          = some v := by
        rw [List.get?_eq_getElem?]
        simp [List.getElem?_set_self', List.getElem?_eq_getElem, hjlen]
      rw [← this, ← heq]
      rfl
    rw [if_neg hne2]
    rfl
  · intro p hp secret sb hsec hsb ts iv hts hiv hts2 hiv2 plaintext hpt j v hj hv hne
    have hct2 : ∀ b ∈ fernetCiphertext p sb iv plaintext, b < 256 :=
      hp.enc_lt (sb.drop 16) iv _ hpt
    have hct2' : ∀ b ∈ (fernetCiphertext p sb iv plaintext).set j v, b < 256 := by
      intro b hb
      rcases List.mem_or_eq_of_mem_set hb with h | rfl
      · exact hct2 b h
      · exact hv
    have h := decryptFernetToken_structured p secret sb ts iv
      ((fernetCiphertext p sb iv plaintext).set j v)
      (fernetTag p sb ts iv (fernetCiphertext p sb iv plaintext))
      hsec hsb hts hiv hts2 hiv2 hct2' (hp.hmac_lt _ _) (hp.hmac_len _ _) (hp.hmac_len _ _)
    have hne' : p.hmacSha256 (sb.take 16)
        (0x80 :: (ts ++ iv ++ (fernetCiphertext p sb iv plaintext).set j v)) ≠
        fernetTag p sb ts iv (fernetCiphertext p sb iv plaintext) := hne
    rw [h, if_neg hne']
    rfl

/-- Witness for C2: all five failure cases at concrete inputs — a three-byte
token, a 57-zero-byte token with a wrong version byte, a secret that is not
base64, a valid token with tag byte 0 overwritten, and a valid token with
ciphertext byte 0 overwritten. -/
theorem c2_fernet_decode_errors_witness :
    (decryptFernetToken plainProvider "AAAA" "x").isOk = false ∧
    (decryptFernetToken plainProvider (base64UrlEncode (List.replicate 57 0)) "x").isOk = false ∧
    (decryptFernetToken plainProvider "AAAA" "!").isOk = false ∧
    (decryptFernetToken plainProvider
      (base64UrlEncode ((0x80 :: (List.replicate 8 0 ++ List.replicate 16 0 ++
          fernetCiphertext plainProvider (List.replicate 32 0) (List.replicate 16 0) "ok")) ++
        (fernetTag plainProvider (List.replicate 32 0) (List.replicate 8 0) (List.replicate 16 0)
          (fernetCiphertext plainProvider (List.replicate 32 0) (List.replicate 16 0) "ok")).set 0 1))
      zeroSecret).isOk = false ∧
    (decryptFernetToken plainProvider
      (base64UrlEncode ((0x80 :: (List.replicate 8 0 ++ List.replicate 16 0 ++
          (fernetCiphertext plainProvider (List.replicate 32 0) (List.replicate 16 0) "ok").set 0 0)) ++
        fernetTag plainProvider (List.replicate 32 0) (List.replicate 8 0) (List.replicate 16 0)
          (fernetCiphertext plainProvider (List.replicate 32 0) (List.replicate 16 0) "ok")))
      zeroSecret).isOk = false :=
  ⟨c2_fernet_decode_errors.1 plainProvider "AAAA" "x" [0, 0, 0] (by decide) (by decide),
   c2_fernet_decode_errors.2.1 plainProvider (base64UrlEncode (List.replicate 57 0)) "x"
     (List.replicate 57 0) (base64UrlDecode_encode _ (by decide)) (by decide),
   c2_fernet_decode_errors.2.2.1 plainProvider "AAAA" "!"
     (fun sb h => by rw [show base64UrlDecode "!" = none from by decide] at h; exact Option.noConfusion h),
   c2_fernet_decode_errors.2.2.2.1 plainProvider plainProviderOK zeroSecret (List.replicate 32 0)
     (by decide) (by decide) (List.replicate 8 0) (List.replicate 16 0) (by decide) (by decide)
     (by decide) (by decide) "ok" (by decide) 0 1 (by decide) (by decide) (by decide),
   c2_fernet_decode_errors.2.2.2.2 plainProvider plainProviderOK zeroSecret (List.replicate 32 0)
     (by decide) (by decide) (List.replicate 8 0) (List.replicate 16 0) (by decide) (by decide)
     (by decide) (by decide) "ok" (by decide) 0 0 (by decide) (by decide) (by decide)⟩

/-! ## Claims C4 and C10: visibility redaction -/

/-- The field-and-properties part of the CLASS probe is untouched by
redaction. -/
theorem classAfterProps_removeAll (e : Event) :
    classAfterProps (removeAllEventInfo e) = classAfterProps e := rfl

/-- Redaction never turns a non-PUBLIC event into a PUBLIC one: the only
CLASS source it clears is the raw iCal text, which can only lose a value. -/
theorem isPublic_removeAll_of_not (e : Event) (h : isPublicEvent e = false) :
    isPublicEvent (removeAllEventInfo e) = false := by
  by_cases ht : jsTruthyS (classAfterProps e) = true
  · have hi : classAfterIcal (removeAllEventInfo e) = classAfterIcal e := by
      unfold classAfterIcal
      rw [classAfterProps_removeAll, if_pos ht, if_pos ht]
    have hc : getEventClass (removeAllEventInfo e) = getEventClass e := by
      unfold getEventClass
      rw [hi]
    unfold isPublicEvent at h ⊢
    rw [hc]
    exact h
  · have ht' : jsTruthyS (classAfterProps e) = false := by
      revert ht; cases jsTruthyS (classAfterProps e) <;> simp
    have hi : classAfterIcal (removeAllEventInfo e) = classAfterProps e := by
      unfold classAfterIcal
      rw [classAfterProps_removeAll, if_neg (by simp [ht'])]
      show (if ("" : String) ≠ "" then _ else _) = _
      rw [if_neg (by simp)]
    unfold isPublicEvent getEventClass
    rw [hi]
    rcases hcp : classAfterProps e with - | s
    · rfl
    · have : s = "" := by
        have := ht'
        rw [hcp] at this
        simpa [jsTruthyS, jsFalsyS] using this
      rw [this]
      rfl

/-- C10: `sanitizeNonPublicEvent` is idempotent — a PUBLIC event is returned
unchanged by each application, and re-sanitizing an already redacted event
changes nothing. -/
theorem c10_sanitize_idempotent (e : Event) :
    sanitizeNonPublicEvent (sanitizeNonPublicEvent e) = sanitizeNonPublicEvent e := by
  by_cases hp : isPublicEvent e = true
  · simp [sanitizeNonPublicEvent, hp]
  · have hp' : isPublicEvent e = false := by
      revert hp; cases isPublicEvent e <;> simp
    have h2 := isPublic_removeAll_of_not e hp'
    simp only [sanitizeNonPublicEvent, hp', h2, Bool.false_eq_true, if_false]
    rfl

/-- C4: redaction of a non-PUBLIC event (including one with no visibility
field at all) yields display title BUSY, empty description, unchanged start
and end times, every identifying field cleared and the event marked
redacted; a PUBLIC event passes unchanged. -/
theorem c4_sanitize_nonpublic (e : Event) :
    (isPublicEvent e = false →
      getEventTitle (sanitizeNonPublicEvent e) = "BUSY" ∧
      getEventDescription (sanitizeNonPublicEvent e) = "" ∧
      getEventTime (sanitizeNonPublicEvent e) .startF = getEventTime e .startF ∧
      getEventTime (sanitizeNonPublicEvent e) .endF = getEventTime e .endF ∧
      (sanitizeNonPublicEvent e).location = some "" ∧
      (sanitizeNonPublicEvent e).organizer = some "" ∧
      (sanitizeNonPublicEvent e).attendees = some "" ∧
      (sanitizeNonPublicEvent e).attendee = some "" ∧
      (sanitizeNonPublicEvent e).participants = some "" ∧
      (sanitizeNonPublicEvent e).url = some "" ∧
      (sanitizeNonPublicEvent e).uid = some "" ∧
      (sanitizeNonPublicEvent e).categories = some "" ∧
      (sanitizeNonPublicEvent e).color = some "" ∧
      (sanitizeNonPublicEvent e).ical = some "" ∧
      (sanitizeNonPublicEvent e).recurrence = some "" ∧
      (sanitizeNonPublicEvent e).sequence = some "" ∧
      (sanitizeNonPublicEvent e).type = some "" ∧
      (sanitizeNonPublicEvent e)._isNonPublic = true) ∧
    (isPublicEvent e = true → sanitizeNonPublicEvent e = e) := by
  constructor
  · intro h
    have hs : sanitizeNonPublicEvent e = removeAllEventInfo e := by
      simp [sanitizeNonPublicEvent, h]
    rw [hs]
    exact ⟨rfl, rfl, rfl, rfl, rfl, rfl, rfl, rfl, rfl, rfl, rfl, rfl, rfl, rfl, rfl, rfl,
      rfl, rfl⟩
  · intro h
    simp [sanitizeNonPublicEvent, h]

/-- Witness for C4: the empty event (no visibility field) is fully redacted;
an explicitly PUBLIC event passes unchanged. -/
theorem c4_sanitize_nonpublic_witness :
    (getEventTitle (sanitizeNonPublicEvent ({} : Event)) = "BUSY" ∧
      getEventDescription (sanitizeNonPublicEvent ({} : Event)) = "" ∧
      getEventTime (sanitizeNonPublicEvent ({} : Event)) .startF = getEventTime ({} : Event) .startF ∧
      getEventTime (sanitizeNonPublicEvent ({} : Event)) .endF = getEventTime ({} : Event) .endF ∧
      (sanitizeNonPublicEvent ({} : Event)).location = some "" ∧
      (sanitizeNonPublicEvent ({} : Event)).organizer = some "" ∧
      (sanitizeNonPublicEvent ({} : Event)).attendees = some "" ∧
      (sanitizeNonPublicEvent ({} : Event)).attendee = some "" ∧
      (sanitizeNonPublicEvent ({} : Event)).participants = some "" ∧
      (sanitizeNonPublicEvent ({} : Event)).url = some "" ∧
      (sanitizeNonPublicEvent ({} : Event)).uid = some "" ∧
      (sanitizeNonPublicEvent ({} : Event)).categories = some "" ∧
      (sanitizeNonPublicEvent ({} : Event)).color = some "" ∧
      (sanitizeNonPublicEvent ({} : Event)).ical = some "" ∧
      (sanitizeNonPublicEvent ({} : Event)).recurrence = some "" ∧
      (sanitizeNonPublicEvent ({} : Event)).sequence = some "" ∧
      (sanitizeNonPublicEvent ({} : Event)).type = some "" ∧
      (sanitizeNonPublicEvent ({} : Event))._isNonPublic = true) ∧
    sanitizeNonPublicEvent ({ classField := some "PUBLIC" } : Event) =
      { classField := some "PUBLIC" } :=
  ⟨(c4_sanitize_nonpublic {}).1 (by decide),
   (c4_sanitize_nonpublic { classField := some "PUBLIC" }).2 (by decide)⟩

/-! ## Claim C6: declined-attendee detection -/

/-- Counterexample to C6 as stated: for the event whose raw fragment carries
`ATTENDEE;PARTSTAT=DECLINED:...:mailto:alice@example.com`, the configured set
`["example.com"]` does not contain that address and no other declined
indicator is present, yet `isEventDeclined` returns true, because the match
is a case-insensitive substring test against the whole attendee line rather
than a membership test on the address. -/
theorem c6_counterexample :
    isEventDeclined declinedEvent ["example.com"] = true ∧
    "alice@example.com" ∉ (["example.com"] : List String) ∧
    cssDeclined declinedEvent = false ∧
    typeDeclined declinedEvent = false ∧
    icalStatusCancelled declinedIcal = false ∧
    statusDeclined declinedEvent = false := by
  refine ⟨by decide, by decide, by decide, by decide, by decide, by decide⟩

/-- C6 (amended): for an event whose raw fragment is the declined-attendee
scenario and which shows no other declined indicator, `isEventDeclined` is
true whenever `alice@example.com` is in the configured set, and false
whenever no configured entry occurs case-insensitively as a substring of the
declined attendee line. -/
theorem c6_user_declined_attendee (e : Event) (emails : List String)
    (hic : e.ical = some declinedIcal)
    (hcss : cssDeclined e = false) (hty : typeDeclined e = false)
    (hst : statusDeclined e = false) :
    ("alice@example.com" ∈ emails → isEventDeclined e emails = true) ∧
    ((∀ em ∈ emails,
        containsSubS (lowerS "ATTENDEE;PARTSTAT=DECLINED:mailto:alice@example.com")
          (lowerS em) = false) →
      isEventDeclined e emails = false) := by
  have hkey : isEventDeclined e emails =
      emails.any (fun em =>
        containsSubS (lowerS "ATTENDEE;PARTSTAT=DECLINED:mailto:alice@example.com")
          (lowerS em)) := by
    unfold isEventDeclined
    rw [hcss, hty, hst, hic]
    have h1 : jsTruthyS (some declinedIcal) = true := by decide
    have h2 : (some declinedIcal).getD "" = declinedIcal := rfl
    rw [h1, h2]
    have h3 : icalStatusCancelled declinedIcal = false := by decide
    rw [h3]
    have h4 : icalLines declinedIcal =
        ["BEGIN:VEVENT", "ATTENDEE;PARTSTAT=DECLINED:mailto:alice@example.com",
          "END:VEVENT"] := by decide
    unfold icalUserDeclined
    rw [h4]
    have h5 : startsWithS "BEGIN:VEVENT" "ATTENDEE" = false := by decide
    have h6 : startsWithS "END:VEVENT" "ATTENDEE" = false := by decide
    have h7 : startsWithS "ATTENDEE;PARTSTAT=DECLINED:mailto:alice@example.com"
        "ATTENDEE" = true := by decide
    have h8 : containsSubS (lowerS "ATTENDEE;PARTSTAT=DECLINED:mailto:alice@example.com")
        "partstat=declined" = true := by decide
    simp [h5, h6, h7, h8]
  constructor
  · intro hmem
    rw [hkey]
    refine List.any_eq_true.2 ⟨"alice@example.com", hmem, by decide⟩
  · intro hall
    rw [hkey]
    exact List.any_eq_false.2 (fun em hem => by simp [hall em hem])

/-- Witness for the amended C6: the declined-attendee event is declined with
the set containing alice's address and not declined with an unrelated set. -/
theorem c6_user_declined_attendee_witness :
    isEventDeclined declinedEvent ["alice@example.com"] = true ∧
    isEventDeclined declinedEvent ["bob@other.org"] = false :=
  ⟨(c6_user_declined_attendee declinedEvent ["alice@example.com"] rfl
      (by decide) (by decide) (by decide)).1 (by decide),
   (c6_user_declined_attendee declinedEvent ["bob@other.org"] rfl
      (by decide) (by decide) (by decide)).2 (by decide)⟩

/-! ## Claim C5: merging touches only same-calendar, exactly-adjacent events -/

/-- C5: two events of calendar "1" whose first end equals the second start
merge into one event spanning the first start to the second end (both are
redacted on the way, having no visibility class); an event of calendar "2"
starting exactly at the first event's end is not merged with it; and two
events of calendar "1" whose normalized times do not touch are not merged
either. -/
theorem c5_merge_consecutive (P : DateProvider) (sa tt eb ec sb2 : String)
    (na nt nb : Int)
    (hpa : P.parseDate sa = some na) (hptt : P.parseDate tt = some nt)
    (hpsb : P.parseDate sb2 = some nb)
    (hle : na ≤ nt) (hle2 : na ≤ nb)
    (hsa : sa ≠ "") (htt : tt ≠ "") (heb : eb ≠ "") (hec : ec ≠ "") (hsb : sb2 ≠ "")
    (hiso : P.dateToIso nt ≠ "") (hne : P.dateToIso nt ≠ P.dateToIso nb) :
    mergeConsecutiveEvents P
      [{ calendar := some "1", start := some sa, endF := some tt },
       { calendar := some "1", start := some tt, endF := some eb }] [] =
    [{ removeAllEventInfo { calendar := some "1", start := some sa, endF := some tt }
        with endF := some eb }] ∧
    mergeConsecutiveEvents P
      [{ calendar := some "1", start := some sa, endF := some tt },
       { calendar := some "2", start := some tt, endF := some ec }] [] =
    [removeAllEventInfo { calendar := some "1", start := some sa, endF := some tt },
     removeAllEventInfo { calendar := some "2", start := some tt, endF := some ec }] ∧
    mergeConsecutiveEvents P
      [{ calendar := some "1", start := some sa, endF := some tt },
       { calendar := some "1", start := some sb2, endF := some eb }] [] =
    [removeAllEventInfo { calendar := some "1", start := some sa, endF := some tt },
     removeAllEventInfo { calendar := some "1", start := some sb2, endF := some eb }] := by
  have hlt : ¬(nt - na < 0) := by omega
  have hlt2 : ¬(nb - na < 0) := by omega
  have hne' : (P.dateToIso nt == P.dateToIso nb) = false := by simp [hne]
  refine ⟨?_, ?_, ?_⟩
  · simp [mergeConsecutiveEvents, filterDeclinedEvents, isEventDeclined, cssDeclined,
      resolvedCss, typeDeclined, statusDeclined, jsTruthyS, jsFalsyS, jsOrS,
      sanitizeNonPublicEvent, isPublicEvent, getEventClass, classAfterIcal, classAfterProps,
      rawClassChain, groupByCalendar, addToGroup, getCalendarId, jsValOr, jsSortEvents,
      insertSorted, sortCmp, getEventTime, timeFieldAliases, runMerge, normalizeDate,
      mergeInto, updateEndFields, removeAllEventInfo, hpa, hptt, hsa, htt, heb, hlt, hiso]
  · simp [mergeConsecutiveEvents, filterDeclinedEvents, isEventDeclined, cssDeclined,
      resolvedCss, typeDeclined, statusDeclined, jsTruthyS, jsFalsyS, jsOrS,
      sanitizeNonPublicEvent, isPublicEvent, getEventClass, classAfterIcal, classAfterProps,
      rawClassChain, groupByCalendar, addToGroup, getCalendarId, jsValOr, jsSortEvents,
      insertSorted, sortCmp, getEventTime, timeFieldAliases, runMerge, normalizeDate,
      removeAllEventInfo, hpa, hptt, hsa, htt, heb, hec]
  · simp [mergeConsecutiveEvents, filterDeclinedEvents, isEventDeclined, cssDeclined,
      resolvedCss, typeDeclined, statusDeclined, jsTruthyS, jsFalsyS, jsOrS,
      sanitizeNonPublicEvent, isPublicEvent, getEventClass, classAfterIcal, classAfterProps,
      rawClassChain, groupByCalendar, addToGroup, getCalendarId, jsValOr, jsSortEvents,
      insertSorted, sortCmp, getEventTime, timeFieldAliases, runMerge, normalizeDate,
      removeAllEventInfo, hpa, hptt, hpsb, hsa, htt, heb, hsb, hlt2, hiso, hne']

/-- Witness for C5 with decimal date strings under `plainDates`. -/
theorem c5_merge_consecutive_witness :
    mergeConsecutiveEvents plainDates
      [{ calendar := some "1", start := some "1", endF := some "2" },
       { calendar := some "1", start := some "2", endF := some "3" }] [] =
    [{ removeAllEventInfo { calendar := some "1", start := some "1", endF := some "2" }
        with endF := some "3" }] ∧
    mergeConsecutiveEvents plainDates
      [{ calendar := some "1", start := some "1", endF := some "2" },
       { calendar := some "2", start := some "2", endF := some "4" }] [] =
    [removeAllEventInfo { calendar := some "1", start := some "1", endF := some "2" },
     removeAllEventInfo { calendar := some "2", start := some "2", endF := some "4" }] ∧
    mergeConsecutiveEvents plainDates
      [{ calendar := some "1", start := some "1", endF := some "2" },
       { calendar := some "1", start := some "9", endF := some "3" }] [] =
    [removeAllEventInfo { calendar := some "1", start := some "1", endF := some "2" },
     removeAllEventInfo { calendar := some "1", start := some "9", endF := some "3" }] :=
  c5_merge_consecutive plainDates "1" "2" "3" "4" "9" 1 2 9
    (by decide) (by decide) (by decide) (by decide) (by decide)
    (by decide) (by decide) (by decide) (by decide) (by decide) (by decide) (by decide)

/-! ## Claim C9: an event without resolvable times interrupts a merge run -/

/-- C9: inside `mergeConsecutiveEvents`, an event with no resolvable start or
end time is emitted unchanged and terminates the running merge: with PUBLIC
events A (times `sa..tt`), M (no time fields) and B (times `tt..eb`) on the
same calendar, the result keeps all three unchanged even though A's
normalized end equals B's normalized start. -/
theorem c9_missing_time_interrupts (P : DateProvider) (sa tt eb : String) (na nt : Int)
    (hpa : P.parseDate sa = some na) (hptt : P.parseDate tt = some nt)
    (hle : na ≤ nt) (hsa : sa ≠ "") (htt : tt ≠ "") (heb : eb ≠ "") :
    mergeConsecutiveEvents P
      [{ classField := some "PUBLIC", calendar := some "1", start := some sa, endF := some tt },
       { classField := some "PUBLIC", calendar := some "1" },
       { classField := some "PUBLIC", calendar := some "1", start := some tt, endF := some eb }]
      [] =
    [{ classField := some "PUBLIC", calendar := some "1", start := some sa, endF := some tt },
     { classField := some "PUBLIC", calendar := some "1" },
     { classField := some "PUBLIC", calendar := some "1", start := some tt, endF := some eb }] := by
  have hlt : ¬(nt - na < 0) := by omega
  have hdA : isEventDeclined
      { classField := some "PUBLIC", calendar := some "1", start := some sa, endF := some tt }
      [] = false := rfl
  have hdM : isEventDeclined { classField := some "PUBLIC", calendar := some "1" } [] =
      false := rfl
  have hdB : isEventDeclined
      { classField := some "PUBLIC", calendar := some "1", start := some tt, endF := some eb }
      [] = false := rfl
  have hsAp : sanitizeNonPublicEvent
      { classField := some "PUBLIC", calendar := some "1", start := some sa, endF := some tt } =
      { classField := some "PUBLIC", calendar := some "1", start := some sa, endF := some tt } := rfl
  have hsMp : sanitizeNonPublicEvent { classField := some "PUBLIC", calendar := some "1" } =
      { classField := some "PUBLIC", calendar := some "1" } := rfl
  have hsBp : sanitizeNonPublicEvent
      { classField := some "PUBLIC", calendar := some "1", start := some tt, endF := some eb } =
      { classField := some "PUBLIC", calendar := some "1", start := some tt, endF := some eb } := rfl
  simp [mergeConsecutiveEvents, filterDeclinedEvents, hdA, hdM, hdB, hsAp, hsMp, hsBp,
    groupByCalendar, addToGroup, getCalendarId, jsValOr, jsOrS, jsTruthyS, jsFalsyS,
    jsSortEvents, insertSorted, sortCmp, getEventTime, timeFieldAliases, runMerge,
    normalizeDate, hpa, hptt, hsa, htt, heb, hlt]

/-- Witness for C9 with decimal date strings under `plainDates`. -/
theorem c9_missing_time_interrupts_witness :
    mergeConsecutiveEvents plainDates
      [{ classField := some "PUBLIC", calendar := some "1", start := some "1", endF := some "2" },
       { classField := some "PUBLIC", calendar := some "1" },
       { classField := some "PUBLIC", calendar := some "1", start := some "2", endF := some "3" }]
      [] =
    [{ classField := some "PUBLIC", calendar := some "1", start := some "1", endF := some "2" },
     { classField := some "PUBLIC", calendar := some "1" },
     { classField := some "PUBLIC", calendar := some "1", start := some "2", endF := some "3" }] :=
  c9_missing_time_interrupts plainDates "1" "2" "3" 1 2
    (by decide) (by decide) (by decide) (by decide) (by decide) (by decide)

/-! ## Claim C3: calendar-file paths and the 403 deny -/

/-- Counterexample to C3 as stated: the deny check is case-sensitive on the
three spellings `.ics`, `.ICAL` and `.iCal`, so the pathname `/x/y.ICS` from
the claim is NOT denied — with a valid configuration the worker proxies it
as a static passthrough and returns the upstream status (here 200), not the
fixed 403. -/
theorem c3_counterexample :
    (workerFetch plainProvider idBodyFns
      { CALENDAR_URL := some "http://example.com/cal" }
      { pathname := "/x/y.ICS", searchParams := [], headers := [] }
      (fun _ => ⟨200, [("content-type", "text/plain")], "hello"⟩)).status = 200 := by
  decide

/-- C3 (amended): for every request whose pathname ends with one of the three
literal spellings `.ics`, `.ICAL` or `.iCal`, given a usable configuration,
the worker returns the fixed 403 plain-text denial before classification
runs — independent of query parameters, headers and the upstream behaviour. -/
theorem c3_calendar_path_denied (p : CryptoProvider) (B : BodyFns) (env : WorkerEnv)
    (req : MRequest) (upstream : UpstreamReq → MResponse)
    (hcal : jsFalsyS env.CALENDAR_URL = false)
    (hkey : (((((splitOnS (env.CALENDAR_URL.getD "") ",").map trimS).filter
        (fun s => s ≠ "")).any (fun u => startsWithS u "fernet://")) &&
      jsFalsyS env.ENCRYPTION_KEY) = false)
    (hpath : endsWithS req.pathname ".ics" = true ∨ endsWithS req.pathname ".ICAL" = true ∨
      endsWithS req.pathname ".iCal" = true) :
    workerFetch p B env req upstream =
      ⟨403, [("Content-Type", "text/plain"), ("Access-Control-Allow-Origin", "*")],
        "Calendar file download is not allowed"⟩ := by
  have hdeny : (endsWithS req.pathname ".ics" || endsWithS req.pathname ".ICAL" ||
      endsWithS req.pathname ".iCal") = true := by
    rcases hpath with h | h | h <;> simp [h]
  simp only [workerFetch, hcal, hkey, hdeny, Bool.false_eq_true, if_false, if_true]

/-- Witness for the amended C3: a lower-case `.ics` path is denied with the
fixed 403. -/
theorem c3_calendar_path_denied_witness :
    workerFetch plainProvider idBodyFns { CALENDAR_URL := some "http://example.com/cal" }
      { pathname := "/a/b.ics", searchParams := [], headers := [] }
      (fun _ => ⟨200, [("content-type", "text/plain")], "hello"⟩) =
    ⟨403, [("Content-Type", "text/plain"), ("Access-Control-Allow-Origin", "*")],
      "Calendar file download is not allowed"⟩ :=
  c3_calendar_path_denied plainProvider idBodyFns
    { CALENDAR_URL := some "http://example.com/cal" }
    { pathname := "/a/b.ics", searchParams := [], headers := [] }
    (fun _ => ⟨200, [("content-type", "text/plain")], "hello"⟩)
    (by decide) (by decide) (Or.inl (by decide))

/-! ## Claim C7: the CORS header -/

/-- Setting a header makes it retrievable. -/
theorem headerGet_headerSet (hs : List (String × String)) (k v : String) :
    headerGet (headerSet hs k v) k = some v := by
  unfold headerGet headerSet
  rw [List.find?_append]
  have hnone : (hs.filter (fun kv => lowerS kv.1 ≠ lowerS k)).find?
      (fun kv => lowerS kv.1 = lowerS k) = none := by
    rw [List.find?_eq_none]
    intro kv hkv
    have := (List.mem_filter.1 hkv).2
    simpa using this
  rw [hnone]
  simp

/-- Every response produced by `sanitizeResponse` carries the CORS header. -/
theorem sanitizeResponse_cors (B : BodyFns) (resp : MResponse) (pathname : String)
    (userEmails : List String) :
    (headerGet (sanitizeResponse B resp pathname userEmails).headers
      "Access-Control-Allow-Origin").isSome = true := by
  simp only [sanitizeResponse]
  split
  · decide
  · split
    · rw [headerGet_headerSet]
      rfl
    · rw [headerGet_headerSet]
      rfl

/-- The error responses of the decrypt loop are 500 plain-text without CORS
header list beyond the content type. -/
theorem decryptUrlList_error_shape (p : CryptoProvider) (urls : List String)
    (key : Option String) (r : MResponse) (h : decryptUrlList p urls key = .error r) :
    r.status = 500 ∧ r.headers = [("Content-Type", "text/plain")] := by
  induction urls with
  | nil => exact absurd h (by simp [decryptUrlList])
  | cons u rest ih =>
    rw [decryptUrlList] at h
    split at h
    · split at h
      · cases h
        exact ⟨rfl, rfl⟩
      · split at h
        · cases h
          exact ⟨rfl, rfl⟩
        · rcases hrec : decryptUrlList p rest key with r' | ds
          · rw [hrec] at h
            cases h
            exact ih hrec
          · rw [hrec] at h
            simp [Except.map] at h
    · rcases hrec : decryptUrlList p rest key with r' | ds
      · rw [hrec] at h
        cases h
        exact ih hrec
      · rw [hrec] at h
        simp [Except.map] at h

/-- Counterexample to C7 as stated: the configuration-error response (here:
`CALENDAR_URL` missing) carries no `Access-Control-Allow-Origin` header. -/
theorem c7_counterexample :
    headerGet (workerFetch plainProvider idBodyFns {}
      { pathname := "/", searchParams := [], headers := [] }
      (fun _ => ⟨200, [], ""⟩)).headers "Access-Control-Allow-Origin" = none := by
  decide

/-- C7 (amended): every response of the worker either carries the
`Access-Control-Allow-Origin: *` header or is one of the early 500
plain-text error responses (configuration errors and token-decryption
failures), which carry only a content type. -/
theorem c7_cors_or_error (p : CryptoProvider) (B : BodyFns) (env : WorkerEnv)
    (req : MRequest) (upstream : UpstreamReq → MResponse) :
    (headerGet (workerFetch p B env req upstream).headers
      "Access-Control-Allow-Origin").isSome = true ∨
    ((workerFetch p B env req upstream).status = 500 ∧
      (workerFetch p B env req upstream).headers = [("Content-Type", "text/plain")]) := by
  simp only [workerFetch]
  split
  · right
    exact ⟨rfl, rfl⟩
  · split
    · right
      exact ⟨rfl, rfl⟩
    · split
      · left
        decide
      · split
        · split
          · next r heq =>
            right
            exact decryptUrlList_error_shape _ _ _ _ heq
          · left
            exact sanitizeResponse_cors _ _ _ _
        · split
          · split
            · next r heq =>
              right
              exact decryptUrlList_error_shape _ _ _ _ heq
            · left
              exact sanitizeResponse_cors _ _ _ _
          · left
            exact sanitizeResponse_cors _ _ _ _

/-! ## Claim C8: per-request source resolution priority -/

/-- A split never produces an empty list (JS `split` always yields at least
one segment). -/
theorem splitOnFuel_ne_nil (sep : List Char) :
    ∀ (fuel : Nat) (s acc : List Char), splitOnFuel sep fuel s acc ≠ [] := by
  intro fuel
  induction fuel with
  | zero => intro s acc; simp [splitOnFuel]
  | succ n ih =>
    intro s acc
    cases s with
    | nil => simp [splitOnFuel]
    | cons c rest =>
      rw [splitOnFuel]
      split
      · simp
      · exact ih rest (c :: acc)

/-- String-level version of `splitOnFuel_ne_nil`. -/
theorem splitOnS_ne_nil (s sep : String) : splitOnS s sep ≠ [] := by
  unfold splitOnS
  intro h
  exact splitOnFuel_ne_nil sep.data (s.data.length + 1) s.data [] (List.map_eq_nil_iff.1 h)

/-- Counterexample to C8 as stated: with empty query parameters, a cookie
snapshot `owc_urls=A` and a non-empty persisted configuration value `["B"]`,
the claimed priority (query, then configuration, then cookie, then Referer)
resolves to `["B"]`, but the per-request worker has no configuration carrier
at all and resolves to the cookie value `["A"]`. -/
theorem c8_counterexample :
    resolveApiSources (fun s => some s) (fun _ => some [])
      { pathname := "/calendar.json", searchParams := [],
        headers := [("Cookie", "owc_urls=A")] } = ["A"] ∧
    resolveApiSourcesSpec (fun s => some s) (fun _ => some []) ["B"]
      { pathname := "/calendar.json", searchParams := [],
        headers := [("Cookie", "owc_urls=A")] } = ["B"] := by
  exact ⟨by decide, by decide⟩

/-- C8 (amended): on event-listing requests the earlier worker resolves the
source list from the first non-empty carrier among (1) the request's own
`url` query parameters, (2) the `owc_urls` cookie snapshot (percent-decoded,
pipe-split), (3) the Referer header's `url` parameters — with no persisted
configuration carrier and no merging across carriers. -/
theorem c8_resolution_order (pctDecode : String → Option String)
    (refererUrlParams : String → Option (List String)) (req : MRequest) :
    resolveApiSources pctDecode refererUrlParams req =
      resolveApiSourcesAmended pctDecode refererUrlParams req := by
  unfold resolveApiSources resolveApiSourcesAmended cookieCarrier refererCarrier
  by_cases hq : queryCarrier req = []
  · simp only [hq, List.length_nil, if_pos rfl, ite_not]
    cases hco : headerGet req.headers "Cookie" with
    | none => simp
    | some ch =>
      by_cases hch : ch = ""
      · simp [hch]
      · simp only [hch, if_neg, ite_false, if_false]
        cases hcv : cookieValue (parseCookiePairs ch) "owc_urls" with
        | none => simp [hch]
        | some ov =>
          cases ov with
          | none => simp [hch]
          | some v =>
            by_cases hv : v = ""
            · simp [hch, hv]
            · cases hpd : pctDecode v with
              | none => simp [hch, hv, hpd]
              | some decoded =>
                have hnn := splitOnS_ne_nil decoded "|"
                simp [hch, hv, hpd, hnn, List.length_eq_zero]
  · have hql : ¬(queryCarrier req).length = 0 := by
      simpa [List.length_eq_zero] using hq
    simp [hql, hq]
